import Mathlib

/-!
A shallow embedding of the passport enrollment pipeline implemented in
`passport_gui.py` (class `PassportProcessor`), together with theorems that
settle the specification claims about it.

Modelling conventions:
* Python strings are `String` / `List Char`; `None`-able string fields are
  `Option String`; JSON-ish dictionary values are `PyVal`, a passport-data
  dictionary is an association list `List (String × PyVal)` with the unique
  keys of a Python dict.
* Python's `str.strip`, `str.split`, and the regex classes `\s` and `\w`
  also accept some non-ASCII whitespace and word characters; the model uses
  their ASCII fragment, which covers every input occurring in the claims.
* Filesystem moves always succeed (the Python code logs and ignores move
  failures); `datetime.now()` timestamps are an explicit `ts` argument and
  `date.today()` an explicit `today` argument.
* Remote HTTP calls are an oracle (`HttpOutcome`) recorded per job in a
  `JobEnv`; the per-endpoint wrapper functions' exception conversion is
  modelled faithfully (`transportResult`, `uploadResult`, `wrapApi`).
-/

/-! ## Character classes (ASCII fragments of Python's classes) -/

/-- ASCII letter, the class `[A-Za-z]` used by the name-cleaning regexes. -/
def isAsciiLetter (c : Char) : Bool :=
  decide (('A' ≤ c ∧ c ≤ 'Z') ∨ ('a' ≤ c ∧ c ≤ 'z'))

/-- ASCII whitespace: the characters of Python's `string.whitespace`,
matched by `str.strip()`, `str.split()` and the regex class `\s`. -/
def isPySpace (c : Char) : Bool :=
  decide (c = ' ' ∨ c = '\t' ∨ c = '\n' ∨ c = '\r' ∨ c.toNat = 11 ∨ c.toNat = 12)

/-- ASCII decimal digit. -/
def isDigitChar (c : Char) : Bool := decide ('0' ≤ c ∧ c ≤ '9')

/-- ASCII fragment of the regex class `\w`: letters, digits, underscore. -/
def isWordChar (c : Char) : Bool := isAsciiLetter c || isDigitChar c || c = '_'

/-! ## List-level string utilities -/

/-- `l.strip()` on characters: drop leading and trailing whitespace. -/
def stripList (l : List Char) : List Char :=
  ((l.dropWhile isPySpace).reverse.dropWhile isPySpace).reverse

/-- `l.lower()` on characters (ASCII case mapping suffices here). -/
def lowerList (l : List Char) : List Char := l.map Char.toLower

/-- Does `l` start with `pat`?  Models Python's `str.startswith`. -/
def listStarts : List Char → List Char → Bool
  | _, [] => true
  | [], _ :: _ => false
  | a :: as, b :: bs => a = b && listStarts as bs

/-- Does `l` contain `pat` as a contiguous run?  Models Python's `pat in l`. -/
def containsSub : List Char → List Char → Bool
  | [], pat => listStarts [] pat
  | c :: rest, pat => listStarts (c :: rest) pat || containsSub rest pat

/-- Python's `pat in s` on strings. -/
def strContains (s pat : String) : Bool := containsSub s.toList pat.toList

/-- Split on exactly one separator character, keeping empty pieces
(Python's `str.split(sep)` with an explicit separator). -/
def splitSepAux (sep : Char) (acc : List Char) : List Char → List (List Char)
  | [] => [acc.reverse]
  | c :: rest =>
    if c = sep then acc.reverse :: splitSepAux sep [] rest
    else splitSepAux sep (c :: acc) rest

/-- Split `l` at every occurrence of `sep`, keeping empty pieces. -/
def splitSep (sep : Char) (l : List Char) : List (List Char) := splitSepAux sep [] l

/-- Python's no-argument `str.split()`: maximal runs of non-whitespace
characters, in order, with no empty words.  `acc` holds the current word
reversed. -/
def splitWsAux (acc : List Char) : List Char → List (List Char)
  | [] => if acc.isEmpty then [] else [acc.reverse]
  | c :: rest =>
    if isPySpace c then
      if acc.isEmpty then splitWsAux [] rest
      else acc.reverse :: splitWsAux [] rest
    else splitWsAux (c :: acc) rest

/-- Python's no-argument `str.split()`. -/
def splitWs (l : List Char) : List (List Char) := splitWsAux [] l

/-- Python's `' '.join(words)`. -/
def joinSp : List (List Char) → List Char
  | [] => []
  | [w] => w
  | w :: ws => w ++ ' ' :: joinSp ws

/-! ## Dates and `calculate_age` (passport_gui.py lines 319-345)

`calculate_age` tries the `datetime.strptime` formats
`["%Y-%m-%d", "%d-%m-%Y", "%m/%d/%Y", "%d/%m/%Y"]` in order, first success
wins, returning `None` when the input is falsy or no format matches; the age
is `today.year - birth.year - ((today.month, today.day) < (birth.month,
birth.day))`. -/

/-- A `datetime.date`: the fields of a parsed calendar date. -/
structure PyDate where
  year : Nat
  month : Nat
  day : Nat
deriving DecidableEq

/-- Gregorian leap-year rule used by `datetime`. -/
def isLeapYear (y : Nat) : Bool := decide (y % 4 = 0 ∧ (y % 100 ≠ 0 ∨ y % 400 = 0))

/-- Days in a month, as validated by the `datetime` constructor. -/
def daysInMonth (y m : Nat) : Nat :=
  if m = 2 then (if isLeapYear y then 29 else 28)
  else if m = 4 ∨ m = 6 ∨ m = 9 ∨ m = 11 then 30 else 31

/-- Numeric value of a digit run. -/
def natOfDigits (l : List Char) : Nat :=
  l.foldl (fun n c => n * 10 + (c.toNat - 48)) 0

/-- One numeric field of a `strptime` pattern: an all-digit run of length
`minLen..maxLen` whose value lies in `lo..hi` (the `%Y`/`%m`/`%d` regexes
of Python's `_strptime`, with the value range the regex enforces). -/
def parseField (l : List Char) (minLen maxLen lo hi : Nat) : Option Nat :=
  if minLen ≤ l.length ∧ l.length ≤ maxLen ∧ l.all isDigitChar then
    let n := natOfDigits l
    if lo ≤ n ∧ n ≤ hi then some n else none
  else none

/-- The four date formats `calculate_age` tries, in source order. -/
inductive DateFmt
  | ymdDash
  | dmyDash
  | mdySlash
  | dmySlash
deriving DecidableEq

/-- The separator character of each format. -/
def fmtSep : DateFmt → Char
  | .ymdDash => '-'
  | .dmyDash => '-'
  | .mdySlash => '/'
  | .dmySlash => '/'

/-- `datetime.strptime(s, fmt).date()` for the four formats: the string must
split at the separator into exactly three all-digit fields (`%Y` exactly
four digits, `%m` one or two digits in 1..12, `%d` one or two digits in
1..31), and the `datetime` constructor additionally requires the day to
exist in the given month. A failure of any kind is `none` (Python raises
`ValueError`, which `calculate_age` turns into trying the next format). -/
def strptimeDate (fmt : DateFmt) (s : String) : Option PyDate :=
  match splitSep (fmtSep fmt) s.toList with
  | [a, b, c] =>
    let ymd : List Char × List Char × List Char :=
      match fmt with
      | .ymdDash => (a, b, c)
      | .dmyDash => (c, b, a)
      | .mdySlash => (c, a, b)
      | .dmySlash => (c, b, a)
    match parseField ymd.1 4 4 1 9999, parseField ymd.2.1 1 2 1 12,
          parseField ymd.2.2 1 2 1 31 with
    | some y, some m, some d =>
      if d ≤ daysInMonth y m then some ⟨y, m, d⟩ else none
    | _, _, _ => none
  | _ => none

/-- The ordered format list from the source. -/
def dateFormats : List DateFmt := [.ymdDash, .dmyDash, .mdySlash, .dmySlash]

/-- The parsing loop of `calculate_age`: first format that succeeds wins. -/
def parseBirthDate (s : String) : Option PyDate :=
  dateFormats.findSome? (fun fmt => strptimeDate fmt s)

/-- Python's lexicographic comparison `(a1, a2) < (b1, b2)` on pairs. -/
def pairLt (a b : Nat × Nat) : Bool :=
  decide (a.1 < b.1 ∨ (a.1 = b.1 ∧ a.2 < b.2))

/-- `PassportProcessor.calculate_age`, with `date.today()` passed
explicitly.  Returns `none` for falsy input or when no format parses. -/
def calculateAge (today : PyDate) (birthDateStr : String) : Option Int :=
  if birthDateStr = "" then none
  else
    match parseBirthDate birthDateStr with
    | none => none
    | some b =>
      some ((today.year : Int) - (b.year : Int) -
        (if pairLt (today.month, today.day) (b.month, b.day) then 1 else 0))

example : calculateAge ⟨2024, 5, 14⟩ "1990-05-15" = some 33 := by decide
example : calculateAge ⟨2024, 5, 15⟩ "1990-05-15" = some 34 := by decide
example : calculateAge ⟨2024, 5, 14⟩ "not-a-date" = none := by decide
example : parseBirthDate "01/02/1990" = some ⟨1990, 1, 2⟩ := by decide
example : parseBirthDate "15-05-1990" = some ⟨1990, 5, 15⟩ := by decide
example : parseBirthDate "31/04/1990" = none := by decide
example : calculateAge ⟨2024, 5, 14⟩ "2500-01-01" = some (-476) := by decide

/-! ## Name sanitization (`clean_passport_data`, passport_gui.py lines 501-532)

The per-field cleaning applied to `first_name`, `last_name`,
`husband_name`, `father_name`:
* `None`, the exact string `"null"`, and `""` become `""`;
* otherwise the value is stringified and stripped; if the result is empty
  or reads `"null"`/`"none"` case-insensitively it becomes `""`;
* otherwise `re.sub(r'[^A-Za-z\s]', '', ...)` keeps letters and whitespace
  and `' '.join(field_str.split())` collapses whitespace runs. -/

/-- Keep only letters and whitespace: `re.sub(r'[^A-Za-z\s]', '', l)`. -/
def keepNameChars (l : List Char) : List Char :=
  l.filter (fun c => isAsciiLetter c || isPySpace c)

/-- `' '.join(l.split())` composed with the letter filter: the
"remove special characters, collapse spaces" core of the cleaning. -/
def sanitizeCore (l : List Char) : List Char := joinSp (splitWs (keepNameChars l))

/-- The per-field cleaning of `clean_passport_data` on a string value. -/
def sanitizeStr (s : String) : String :=
  if s = "null" ∨ s = "" then ""
  else
    let t := stripList s.toList
    if t.isEmpty ∨ lowerList t = "null".toList ∨ lowerList t = "none".toList then ""
    else String.mk (sanitizeCore t)

/-- The per-field cleaning on a string-or-`None` field (the shape the
OCR collaborator produces for the four name fields). -/
def sanitizeName : Option String → String
  | none => ""
  | some s => sanitizeStr s

/-- A JSON-ish dictionary value as produced by the OCR extraction. -/
inductive PyVal
  | vStr (s : String)
  | vBool (b : Bool)
  | vNull
deriving DecidableEq

/-- Python's `str(v)` on such a value. -/
def pyStr : PyVal → String
  | .vStr s => s
  | .vBool true => "True"
  | .vBool false => "False"
  | .vNull => "None"

/-- Python truthiness of a dictionary lookup result (`d.get(k)`):
a missing key or `None` is falsy, a string is truthy iff nonempty. -/
def pyTruthyVal : Option PyVal → Bool
  | none => false
  | some .vNull => false
  | some (.vStr s) => s ≠ ""
  | some (.vBool b) => b

/-- The per-field cleaning on an arbitrary dictionary value.  `None` maps
to `""` (first check of the source); a boolean fails the `== "null"` /
`== ""` checks and is stringified, matching `str(field_value).strip()`. -/
def cleanValue : PyVal → PyVal
  | .vNull => .vStr ""
  | .vStr s => .vStr (sanitizeStr s)
  | .vBool b => .vStr (sanitizeStr (pyStr (.vBool b)))

/-- The four keys `clean_passport_data` cleans. -/
def nameFields : List String := ["first_name", "last_name", "husband_name", "father_name"]

/-- `PassportProcessor.clean_passport_data` on a dictionary with unique
keys: each of the four name fields that is present is replaced by its
cleaned value, everything else is untouched. -/
def cleanPassportData (d : List (String × PyVal)) : List (String × PyVal) :=
  d.map (fun kv => if kv.1 ∈ nameFields then (kv.1, cleanValue kv.2) else kv)

example : sanitizeName (some "n#ull") = "null" := by decide
example : sanitizeName (some "null") = "" := by decide
example : sanitizeName (some "NuLL") = "" := by decide
example : sanitizeName (some "  A.  B!  ") = "A B" := by decide
example : sanitizeName none = "" := by decide

/-! ## Family-name resolution (`submit_full_info_api`, lines 799-824)

The last-name fallback chain of the contact payload: the stripped
`last_name` if nonempty; else, when `married` is truthy and `husband_name`
truthy, the stripped husband name (Arabic from `husband_arabic_name` when
truthy); else, when `father_name` is truthy, the stripped father name
(Arabic from `father_arabic_name` when truthy); else empty.  The final
English value always passes through `re.sub(r"[^A-Za-z\s]", "", ...)`. -/

/-- The name-related fields `submit_full_info_api` reads from the passport
dictionary, with `married` already reduced to its truthiness. -/
structure NameFields where
  lastName : Option String
  arabicLastName : Option String
  husbandName : Option String
  husbandArabicName : Option String
  fatherName : Option String
  fatherArabicName : Option String
  married : Bool
deriving DecidableEq

/-- Python's `(x or "")` on a string-or-`None` field. -/
def optStr (x : Option String) : String := x.getD ""

/-- Python truthiness of a string-or-`None` field. -/
def truthyStr (x : Option String) : Bool := optStr x ≠ ""

/-- `x.strip()` on strings. -/
def stripStr (s : String) : String := String.mk (stripList s.toList)

/-- The final `re.sub(r"[^A-Za-z\s]", "", last_name_en)`. -/
def reSanitize (s : String) : String := String.mk (keepNameChars s.toList)

/-- The family-name block of `submit_full_info_api`: returns the
`(en, ar)` pair that the contact payload's `familyName` field carries. -/
def resolveFamilyName (f : NameFields) : String × String :=
  let en0 := stripStr (optStr f.lastName)
  let ar0 := stripStr (optStr f.arabicLastName)
  let enAr :=
    if en0 = "" then
      if f.married && truthyStr f.husbandName then
        let h := stripStr (optStr f.husbandName)
        if h ≠ "" then
          (h, if truthyStr f.husbandArabicName then optStr f.husbandArabicName else ar0)
        else (en0, ar0)
      else if truthyStr f.fatherName then
        let fa := stripStr (optStr f.fatherName)
        if fa ≠ "" then
          (fa, if truthyStr f.fatherArabicName then optStr f.fatherArabicName else ar0)
        else (en0, ar0)
      else (en0, ar0)
    else (en0, ar0)
  (reSanitize enAr.1, enAr.2)

example :
    (resolveFamilyName ⟨some "", none, some "Al Rashid", none, none, none, true⟩).1 =
      "Al Rashid" := by decide
example :
    (resolveFamilyName ⟨some "", none, some "", none, some "Hassan", none, true⟩).1 =
      "Hassan" := by decide
example :
    resolveFamilyName ⟨some "", none, some "", none, some "", none, true⟩ = ("", "") := by
  decide

/-! ## The transport layer (scan/submit/upload wrappers, lines 595-1113)

Each remote endpoint wrapper posts one HTTP request and converts failures
uniformly: a 401 status is re-raised as an `HTTPError` carrying the message
`"401 Unauthorized - Invalid authentication token"`; any other non-2xx
status becomes a generic `Exception("HTTP {status}: {body}")`; timeouts and
connection failures become generic `Exception`s with fixed messages.
`process_passport_api` catches every exception of a job and re-raises it as
`Exception("API processing error: {str(e)}")`, so the run loop only ever
sees generic exceptions for per-job failures. -/

/-- A raised Python exception as the run loop observes it. -/
inductive PyExc
  | httpError (status : Nat) (msg : String)
  | exc (msg : String)
deriving DecidableEq

/-- Python's `str(e)` on an exception. -/
def PyExc.text : PyExc → String
  | .httpError _ m => m
  | .exc m => m

/-- The oracle outcome of one HTTP request: a 2xx response with parsed body
`α`, a non-2xx status with its body text, or a network-level failure. -/
inductive HttpOutcome (α : Type)
  | success (body : α)
  | httpStatus (code : Nat) (body : String)
  | timeout
  | connError
deriving DecidableEq

/-- The message of the `HTTPError` every wrapper raises on a 401 status. -/
def authMsg : String := "401 Unauthorized - Invalid authentication token"

/-- The shared error-conversion of the endpoint wrappers (`scan_passport_api`,
`submit_initial_info_api`, `upload_attachment_api`, `submit_full_info_api`,
`submit_disclosure_api`): 401 statuses propagate as `HTTPError`, everything
else as a generic `Exception` with the source's message. -/
def transportResult {α : Type} : HttpOutcome α → Except PyExc α
  | .success b => .ok b
  | .httpStatus c body =>
    if c = 401 then .error (.httpError 401 authMsg)
    else .error (.exc ("HTTP " ++ toString c ++ ": " ++ body))
  | .timeout => .error (.exc "Request timeout - API server is not responding")
  | .connError => .error (.exc "Connection error - Unable to connect to API server")

/-- `upload_attachment_api` additionally raises when the 2xx body carries a
falsy `attachmentResponse`; the generic handler wraps that message.  The
body oracle is the truthiness of `attachmentResponse`. -/
def uploadResult (o : HttpOutcome Bool) : Except PyExc Unit :=
  match transportResult o with
  | .error e => .error e
  | .ok attachTruthy =>
    if attachTruthy then .ok ()
    else .error (.exc "Failed to upload attachment: No attachment data returned from API")

/-- The catch-all of `process_passport_api`: every exception is re-raised
as `Exception("API processing error: " + str(e))` — in particular a 401
`HTTPError` arrives at the run loop as a generic exception whose text
contains `"401"`. -/
def wrapApi (e : PyExc) : PyExc := .exc ("API processing error: " ++ e.text)

/-! ## The run loop (`PassportProcessor.run`, lines 385-499) -/

/-- The remote operations a batch can issue. -/
inductive RemoteOp
  | scanPassport
  | submitIdentity
  | listCompanions
  | uploadAttachment (typeCode : Nat)
  | submitContactInfo
  | submitDisclosure
  | createGroup
  | assignMutamers
deriving DecidableEq

/-- The observable side effects of a batch: remote calls issued and source
files moved to disposition folders (with their new filename). -/
inductive Event
  | call (op : RemoteOp)
  | movedUnderAge (src dest : String)
  | movedError (src dest : String)
  | movedProcessed (src dest : String)
deriving DecidableEq

/-- One job's inputs and remote-call oracle: the source file name, the OCR
extraction result (`None` on extraction failure), and the outcome of each
remote call the job would issue.  `scan` and the upload bodies carry only
their truthiness, which is all the pipeline inspects of them. -/
structure JobEnv where
  file : String
  extract : Option (List (String × PyVal))
  scan : HttpOutcome Bool
  submitIdentity : HttpOutcome Nat
  hasCompanionMapping : Bool
  uploadIqama : HttpOutcome Bool
  uploadVaccine : HttpOutcome Bool
  submitContact : HttpOutcome Unit
  submitDisclosure : HttpOutcome Unit
deriving DecidableEq

/-- `PassportProcessor.process_passport_api`: the ordered steps
scan → submit identity → (companion lookup when mapped) → upload type 2 →
upload type 3 → contact info → disclosure, returning the issued-call trace
and either the mutamer id (`none` when the 2xx scan body is falsy — the
source then returns `None` without error) or the wrapped first exception.
Companion lookup swallows its own failures (`find_companion_id_by_passport`
catches every exception and returns `None`), so it never raises. -/
def processPassportApi (j : JobEnv) : List Event × Except PyExc (Option Nat) :=
  let ev1 : List Event := [.call .scanPassport]
  match transportResult j.scan with
  | .error e => (ev1, .error (wrapApi e))
  | .ok scannedTruthy =>
    if !scannedTruthy then (ev1, .ok none)
    else
      let ev2 := ev1 ++ [.call .submitIdentity]
      match transportResult j.submitIdentity with
      | .error e => (ev2, .error (wrapApi e))
      | .ok mutamerId =>
        let ev3 := ev2 ++ (if j.hasCompanionMapping then [.call .listCompanions] else [])
        let ev4 := ev3 ++ [.call (.uploadAttachment 2)]
        match uploadResult j.uploadIqama with
        | .error e => (ev4, .error (wrapApi e))
        | .ok _ =>
          let ev5 := ev4 ++ [.call (.uploadAttachment 3)]
          match uploadResult j.uploadVaccine with
          | .error e => (ev5, .error (wrapApi e))
          | .ok _ =>
            let ev6 := ev5 ++ [.call .submitContactInfo]
            match transportResult j.submitContact with
            | .error e => (ev6, .error (wrapApi e))
            | .ok _ =>
              let ev7 := ev6 ++ [.call .submitDisclosure]
              match transportResult j.submitDisclosure with
              | .error e => (ev7, .error (wrapApi e))
              | .ok _ => (ev7, .ok (some mutamerId))

/-- The name-part of the under-age disposition filename: present only when
both `first_name` and `last_name` are truthy. -/
def underAgeNamePart (pd : List (String × PyVal)) : String :=
  if pyTruthyVal (List.lookup "first_name" pd) && pyTruthyVal (List.lookup "last_name" pd)
  then "_" ++ pyStr ((List.lookup "first_name" pd).getD .vNull) ++ "_" ++
    pyStr ((List.lookup "last_name" pd).getD .vNull)
  else ""

/-- `move_under_age_file`'s destination filename:
`f"{timestamp}{name_part}_UNDERAGE_{filename}"`. -/
def underAgeName (ts fileName : String) (pd : List (String × PyVal)) : String :=
  ts ++ underAgeNamePart pd ++ "_UNDERAGE_" ++ fileName

/-- `move_error_file`'s sanitized error fragment:
`re.sub(r'[^\w\s-]', '', error_message.replace(' ', '_'))[:50]`. -/
def errorPart (msg : String) : String :=
  String.mk ((((msg.toList).map (fun c => if c = ' ' then '_' else c)).filter
    (fun c => isWordChar c || isPySpace c || c = '-')).take 50)

/-- `move_error_file`'s destination filename:
`f"{timestamp}_ERROR_{error_part}_{filename}"`. -/
def errorName (ts fileName msg : String) : String :=
  ts ++ "_ERROR_" ++ errorPart msg ++ "_" ++ fileName

/-- `move_processed_file`'s destination filename: `f"{timestamp}_{filename}"`. -/
def processedName (ts fileName : String) : String := ts ++ "_" ++ fileName

/-- `calculate_age` applied to a raw dictionary value: a non-string birth
date makes `strptime` raise `TypeError`, which the function's outer handler
turns into `None`. -/
def calculateAgeVal (today : PyDate) : PyVal → Option Int
  | .vStr s => calculateAge today s
  | _ => none

/-- The run loop's under-age test on an extracted dictionary: the
`date_of_birth` value is truthy, its computed age is not `None`, and the
age is negative (`if age < 0:` in the source). -/
def jobUnderAge (today : PyDate) (pd : List (String × PyVal)) : Bool :=
  pyTruthyVal (List.lookup "date_of_birth" pd) &&
    (match calculateAgeVal today ((List.lookup "date_of_birth" pd).getD .vNull) with
     | some a => decide (a < 0)
     | none => false)

/-- The counters, collected ids, stop flag and side-effect trace of a batch
(`processed_count`, `error_count`, `under_age_count`, `mutamer_ids`,
`should_stop_processing`). -/
structure BatchState where
  processedCount : Nat
  errorCount : Nat
  underAgeCount : Nat
  mutamerIds : List Nat
  shouldStop : Bool
  events : List Event
deriving DecidableEq

/-- The state a batch starts from. -/
def startState : BatchState := ⟨0, 0, 0, [], false, []⟩

/-- One iteration of the run loop's `for` body on a job that has been
reached (the stop flag was down).  Extraction failure leaves everything
unchanged (`continue`, file untouched); a negative computed age moves the
file to the under-age folder and counts it; otherwise the job runs
`process_passport_api` and its result is dispatched exactly as the two
`except` arms of the source do — note the `except HTTPError` arm is modelled
although `process_passport_api`'s catch-all makes it unreachable. -/
def runJob (today : PyDate) (ts : String) (s : BatchState) (j : JobEnv) : BatchState :=
  match j.extract with
  | none => s
  | some pd =>
    if jobUnderAge today pd then
      { s with underAgeCount := s.underAgeCount + 1,
               events := s.events ++ [.movedUnderAge j.file (underAgeName ts j.file pd)] }
    else
      match processPassportApi j with
      | (evs, .ok midOpt) =>
        { s with
          mutamerIds := s.mutamerIds ++
            (match midOpt with
             | some m => if m = 0 then [] else [m]
             | none => []),
          events := s.events ++ evs ++ [.movedProcessed j.file (processedName ts j.file)],
          processedCount := s.processedCount + 1 }
      | (evs, .error e) =>
        match e with
        | .httpError code m =>
          if code = 401 then { s with shouldStop := true, events := s.events ++ evs }
          else
            { s with errorCount := s.errorCount + 1,
                     events := s.events ++ evs ++
                       [.movedError j.file
                         (errorName ts j.file ("HTTP Error " ++ toString code ++ ": " ++ m))] }
        | .exc m =>
          if strContains m "401" || strContains m "Unauthorized" then
            { s with shouldStop := true, events := s.events ++ evs }
          else
            { s with errorCount := s.errorCount + 1,
                     events := s.events ++ evs ++ [.movedError j.file (errorName ts j.file m)] }

/-- The run loop over the job list: each iteration first checks the stop
flag and `break`s when it is up. -/
def runJobs (today : PyDate) (ts : String) (s : BatchState) : List JobEnv → BatchState
  | [] => s
  | j :: rest =>
    if s.shouldStop then s
    else runJobs today ts (runJob today ts s j) rest

/-- The calls `create_group_api` issues: always `CreateGroup`; then, only
when the 2xx body carried a truthy group id, `AssignMutamers`.  Failures of
either call are caught inside `create_group_api` / `assign_mutamers_to_group`
and only logged, so this phase raises nothing and touches no counters. -/
def groupPhaseEvents (gOut : HttpOutcome (Option Nat)) : List Event :=
  Event.call .createGroup ::
    (match transportResult gOut with
     | .error _ => []
     | .ok none => []
     | .ok (some gid) => if gid = 0 then [] else [.call .assignMutamers])

/-- The whole of `PassportProcessor.run` after batch-start validation: the
job loop, then — only when group creation was requested and at least one
mutamer id was collected — the group-formation phase. -/
def runBatch (today : PyDate) (ts : String) (createGroupRequested : Bool)
    (gOut : HttpOutcome (Option Nat)) (jobs : List JobEnv) : BatchState :=
  let s := runJobs today ts startState jobs
  if createGroupRequested && !s.mutamerIds.isEmpty then
    { s with events := s.events ++ groupPhaseEvents gOut }
  else s

/-! ## Structure of sanitized names

The cleaning core produces a list of nonempty all-letter words joined by
single spaces; such a list is a fixed point of stripping, filtering and
re-splitting.  These lemmas drive the (amended) idempotence claim. -/

lemma ne_nil_of_not_isEmpty {w : List Char} (h : ¬ w.isEmpty = true) : w ≠ [] := by
  cases w <;> simp_all

lemma isEmpty_false_of_ne {w : List Char} (h : w ≠ []) : w.isEmpty = false := by
  cases w <;> simp_all

lemma splitWsAux_shape (l : List Char) :
    ∀ acc : List Char, (∀ c ∈ acc, isPySpace c = false) →
    ∀ w ∈ splitWsAux acc l, w ≠ [] ∧ ∀ c ∈ w, isPySpace c = false ∧ (c ∈ l ∨ c ∈ acc) := by
  induction l with
  | nil =>
    intro acc hacc w hw
    by_cases h : acc.isEmpty
    · simp [splitWsAux, h] at hw
    · simp only [splitWsAux, h, if_false] at hw
      rw [if_neg (by simp_all)] at hw
      rw [List.mem_singleton] at hw
      subst hw
      refine ⟨by simpa using ne_nil_of_not_isEmpty h, ?_⟩
      intro c hc
      exact ⟨hacc c (List.mem_reverse.mp hc), Or.inr (List.mem_reverse.mp hc)⟩
  | cons a l ih =>
    intro acc hacc w hw
    by_cases hs : isPySpace a
    · by_cases h : acc.isEmpty
      · rw [show splitWsAux acc (a :: l) = splitWsAux [] l from by simp [splitWsAux, hs, h]] at hw
        obtain ⟨hne, hmem⟩ := ih [] (by simp) w hw
        exact ⟨hne, fun c hc =>
          ⟨(hmem c hc).1, Or.inl (List.mem_cons_of_mem _ ((hmem c hc).2.elim id (by simp)))⟩⟩
      · rw [show splitWsAux acc (a :: l) = acc.reverse :: splitWsAux [] l from by
            simp [splitWsAux, hs, h]] at hw
        rcases List.mem_cons.mp hw with hw | hw
        · subst hw
          refine ⟨by simpa using ne_nil_of_not_isEmpty h, ?_⟩
          intro c hc
          exact ⟨hacc c (List.mem_reverse.mp hc), Or.inr (List.mem_reverse.mp hc)⟩
        · obtain ⟨hne, hmem⟩ := ih [] (by simp) w hw
          exact ⟨hne, fun c hc =>
            ⟨(hmem c hc).1, Or.inl (List.mem_cons_of_mem _ ((hmem c hc).2.elim id (by simp)))⟩⟩
    · rw [show splitWsAux acc (a :: l) = splitWsAux (a :: acc) l from by
          simp [splitWsAux, hs]] at hw
      obtain ⟨hne, hmem⟩ := ih (a :: acc) (by
        intro c hc
        rcases List.mem_cons.mp hc with h | h
        · subst h; simpa using hs
        · exact hacc c h) w hw
      refine ⟨hne, fun c hc => ⟨(hmem c hc).1, ?_⟩⟩
      rcases (hmem c hc).2 with h | h
      · exact Or.inl (List.mem_cons_of_mem _ h)
      · rcases List.mem_cons.mp h with h | h
        · exact Or.inl (by simp [h])
        · exact Or.inr h

lemma splitWs_shape (l : List Char) :
    ∀ w ∈ splitWs l, w ≠ [] ∧ ∀ c ∈ w, isPySpace c = false ∧ c ∈ l := by
  intro w hw
  obtain ⟨hne, hmem⟩ := splitWsAux_shape l [] (by simp) w hw
  exact ⟨hne, fun c hc => ⟨(hmem c hc).1, (hmem c hc).2.elim id (by simp)⟩⟩

lemma splitWsAux_append_word (w : List Char) :
    ∀ acc l, (∀ c ∈ w, isPySpace c = false) →
    splitWsAux acc (w ++ l) = splitWsAux (w.reverse ++ acc) l := by
  induction w with
  | nil => intro acc l _; simp
  | cons a w ih =>
    intro acc l hw
    have ha : isPySpace a = false := hw a (by simp)
    rw [show (a :: w) ++ l = a :: (w ++ l) from rfl]
    rw [show splitWsAux acc (a :: (w ++ l)) = splitWsAux (a :: acc) (w ++ l) from by
      simp [splitWsAux, ha]]
    rw [ih (a :: acc) l (fun c hc => hw c (List.mem_cons_of_mem _ hc))]
    simp

lemma splitWs_joinSp (ws : List (List Char))
    (hne : ∀ w ∈ ws, w ≠ []) (hsp : ∀ w ∈ ws, ∀ c ∈ w, isPySpace c = false) :
    splitWs (joinSp ws) = ws := by
  induction ws with
  | nil => simp [splitWs, joinSp, splitWsAux]
  | cons w ws ih =>
    cases ws with
    | nil =>
      have h1 : w ≠ [] := hne w (by simp)
      have h2 : w.reverse.isEmpty = false := isEmpty_false_of_ne (by simpa using h1)
      show splitWsAux [] (joinSp [w]) = [w]
      rw [show joinSp [w] = w ++ [] from by simp [joinSp]]
      rw [splitWsAux_append_word w [] [] (hsp w (by simp))]
      simp [splitWsAux, h2]
    | cons w2 ws2 =>
      have h1 : w ≠ [] := hne w (by simp)
      have h2 : w.reverse.isEmpty = false := isEmpty_false_of_ne (by simpa using h1)
      show splitWsAux [] (w ++ ' ' :: joinSp (w2 :: ws2)) = w :: w2 :: ws2
      rw [splitWsAux_append_word w [] (' ' :: joinSp (w2 :: ws2)) (hsp w (by simp))]
      rw [show splitWsAux (w.reverse ++ []) (' ' :: joinSp (w2 :: ws2)) =
          w :: splitWsAux [] (joinSp (w2 :: ws2)) from by
        simp [splitWsAux, h2, show isPySpace ' ' = true from rfl]]
      rw [show splitWsAux [] (joinSp (w2 :: ws2)) = splitWs (joinSp (w2 :: ws2)) from rfl]
      rw [ih (fun u hu => hne u (List.mem_cons_of_mem _ hu))
        (fun u hu => hsp u (List.mem_cons_of_mem _ hu))]

lemma joinSp_chars (ws : List (List Char)) :
    ∀ c ∈ joinSp ws, (∃ w ∈ ws, c ∈ w) ∨ c = ' ' := by
  induction ws with
  | nil => simp [joinSp]
  | cons w ws ih =>
    cases ws with
    | nil => intro c hc; exact Or.inl ⟨w, by simp, by simpa [joinSp] using hc⟩
    | cons w2 ws2 =>
      intro c hc
      rw [show joinSp (w :: w2 :: ws2) = w ++ ' ' :: joinSp (w2 :: ws2) from rfl] at hc
      rcases List.mem_append.mp hc with hc | hc
      · exact Or.inl ⟨w, by simp, hc⟩
      · rcases List.mem_cons.mp hc with hc | hc
        · exact Or.inr hc
        · rcases ih c hc with ⟨u, hu, hcu⟩ | h
          · exact Or.inl ⟨u, List.mem_cons_of_mem _ hu, hcu⟩
          · exact Or.inr h

lemma joinSp_head (ws : List (List Char)) (hws : ws ≠ [])
    (hne : ∀ w ∈ ws, w ≠ []) (hsp : ∀ w ∈ ws, ∀ c ∈ w, isPySpace c = false) :
    ∃ c cs, joinSp ws = c :: cs ∧ isPySpace c = false := by
  cases ws with
  | nil => exact absurd rfl hws
  | cons w ws =>
    have h1 : w ≠ [] := hne w (by simp)
    cases hw : w with
    | nil => exact absurd hw h1
    | cons a w' =>
      have ha : isPySpace a = false := hsp w (by simp) a (by simp [hw])
      cases ws with
      | nil => exact ⟨a, w', by simp [joinSp, hw], ha⟩
      | cons w2 ws2 => exact ⟨a, w' ++ ' ' :: joinSp (w2 :: ws2), by simp [joinSp, hw], ha⟩

lemma joinSp_last (ws : List (List Char))
    (hne : ∀ w ∈ ws, w ≠ []) (hsp : ∀ w ∈ ws, ∀ c ∈ w, isPySpace c = false) (hws : ws ≠ []) :
    ∃ c cs, (joinSp ws).reverse = c :: cs ∧ isPySpace c = false := by
  induction ws with
  | nil => exact absurd rfl hws
  | cons w ws ih =>
    cases ws with
    | nil =>
      have h1 : w ≠ [] := hne w (by simp)
      cases hw : w.reverse with
      | nil => exact absurd (by simpa using congrArg List.reverse hw) h1
      | cons a w' =>
        have ha : a ∈ w := List.mem_reverse.mp (by simp [hw])
        exact ⟨a, w', by simp [joinSp, hw], hsp w (by simp) a ha⟩
    | cons w2 ws2 =>
      obtain ⟨c, cs, hrev, hc⟩ := ih (fun u hu => hne u (List.mem_cons_of_mem _ hu))
        (fun u hu => hsp u (List.mem_cons_of_mem _ hu)) (by simp)
      refine ⟨c, cs ++ (' ' :: w.reverse), ?_, hc⟩
      rw [show joinSp (w :: w2 :: ws2) = w ++ ' ' :: joinSp (w2 :: ws2) from rfl]
      rw [List.reverse_append]
      simp [hrev]

lemma sanitizeCore_word_shape (t : List Char) :
    ∀ w ∈ splitWs (keepNameChars t), w ≠ [] ∧ ∀ c ∈ w, isPySpace c = false ∧ isAsciiLetter c = true := by
  intro w hw
  obtain ⟨hne, hmem⟩ := splitWs_shape (keepNameChars t) w hw
  refine ⟨hne, fun c hc => ⟨(hmem c hc).1, ?_⟩⟩
  have hin : c ∈ keepNameChars t := (hmem c hc).2
  have := (List.mem_filter.mp hin).2
  have hns := (hmem c hc).1
  simp only [Bool.or_eq_true] at this
  rcases this with h | h
  · exact h
  · rw [h] at hns; exact absurd hns (by simp)

lemma sanitizeCore_char (t : List Char) :
    ∀ c ∈ sanitizeCore t, (isAsciiLetter c || isPySpace c) = true := by
  intro c hc
  rcases joinSp_chars _ c hc with ⟨w, hw, hcw⟩ | h
  · have := (sanitizeCore_word_shape t w hw).2 c hcw
    simp [this.2]
  · subst h; decide

lemma keep_sanitizeCore (t : List Char) :
    keepNameChars (sanitizeCore t) = sanitizeCore t :=
  List.filter_eq_self.mpr (sanitizeCore_char t)

lemma splitWs_sanitizeCore (t : List Char) :
    splitWs (sanitizeCore t) = splitWs (keepNameChars t) :=
  splitWs_joinSp _ (fun w hw => (sanitizeCore_word_shape t w hw).1)
    (fun w hw c hc => ((sanitizeCore_word_shape t w hw).2 c hc).1)

lemma sanitizeCore_idem (t : List Char) :
    sanitizeCore (sanitizeCore t) = sanitizeCore t := by
  show joinSp (splitWs (keepNameChars (sanitizeCore t))) = sanitizeCore t
  rw [keep_sanitizeCore, splitWs_sanitizeCore]
  rfl

lemma stripList_sanitizeCore (t : List Char) :
    stripList (sanitizeCore t) = sanitizeCore t := by
  rcases hws : splitWs (keepNameChars t) with _ | ⟨w, ws⟩
  · have hcore : sanitizeCore t = [] := by
      show joinSp (splitWs (keepNameChars t)) = []
      rw [hws]
      rfl
    rw [hcore]
    rfl
  · have hne : ∀ u ∈ splitWs (keepNameChars t), u ≠ [] :=
      fun u hu => (sanitizeCore_word_shape t u hu).1
    have hsp : ∀ u ∈ splitWs (keepNameChars t), ∀ c ∈ u, isPySpace c = false :=
      fun u hu c hc => ((sanitizeCore_word_shape t u hu).2 c hc).1
    obtain ⟨c, cs, hhead, hc⟩ := joinSp_head _ (by rw [hws]; simp) hne hsp
    obtain ⟨c2, cs2, hlast, hc2⟩ := joinSp_last _ hne hsp (by rw [hws]; simp)
    show stripList (joinSp (splitWs (keepNameChars t))) = sanitizeCore t
    unfold stripList
    rw [show joinSp (splitWs (keepNameChars t)) = sanitizeCore t from rfl] at hhead hlast ⊢
    rw [hhead, List.dropWhile_cons, if_neg (by simp [hc]), ← hhead, hlast,
      List.dropWhile_cons, if_neg (by simp [hc2]), ← hlast, List.reverse_reverse]

lemma sanitizeStr_first_empty (s : String) (hA : s = "null" ∨ s = "") :
    sanitizeStr s = "" := by
  rw [sanitizeStr, if_pos hA]

lemma sanitizeStr_second_empty (s : String) (hA : ¬(s = "null" ∨ s = ""))
    (hB : (stripList s.toList).isEmpty = true ∨
      lowerList (stripList s.toList) = "null".toList ∨
      lowerList (stripList s.toList) = "none".toList) :
    sanitizeStr s = "" := by
  rw [sanitizeStr, if_neg hA]
  show (if (stripList s.toList).isEmpty = true ∨ _ ∨ _ then "" else _) = ""
  exact if_pos hB

lemma sanitizeStr_main (s : String) (hA : ¬(s = "null" ∨ s = ""))
    (hB : ¬((stripList s.toList).isEmpty = true ∨
      lowerList (stripList s.toList) = "null".toList ∨
      lowerList (stripList s.toList) = "none".toList)) :
    sanitizeStr s = String.mk (sanitizeCore (stripList s.toList)) := by
  rw [sanitizeStr, if_neg hA]
  show (if (stripList s.toList).isEmpty = true ∨ _ ∨ _ then "" else _) = _
  exact if_neg hB

lemma toList_mk (l : List Char) : (String.mk l).toList = l := rfl

lemma sanitizeStr_fixed (s : String)
    (h1 : lowerList (sanitizeStr s).toList ≠ "null".toList)
    (h2 : lowerList (sanitizeStr s).toList ≠ "none".toList) :
    sanitizeStr (sanitizeStr s) = sanitizeStr s := by
  by_cases hA : s = "null" ∨ s = ""
  · rw [sanitizeStr_first_empty s hA]
    decide
  · by_cases hB : (stripList s.toList).isEmpty = true ∨
        lowerList (stripList s.toList) = "null".toList ∨
        lowerList (stripList s.toList) = "none".toList
    · rw [sanitizeStr_second_empty s hA hB]
      decide
    · have hy : sanitizeStr s = String.mk (sanitizeCore (stripList s.toList)) :=
        sanitizeStr_main s hA hB
      set t := stripList s.toList with ht
      by_cases hw : sanitizeCore t = []
      · rw [hy, hw]
        decide
      · have hyA : ¬(sanitizeStr s = "null" ∨ sanitizeStr s = "") := by
          rintro (h | h)
          · apply h1
            rw [h]
            decide
          · rw [hy] at h
            exact hw (congrArg String.data h)
        have hstrip : stripList (sanitizeStr s).toList = sanitizeCore t := by
          rw [hy, toList_mk, stripList_sanitizeCore]
        have hyB : ¬((stripList (sanitizeStr s).toList).isEmpty = true ∨
            lowerList (stripList (sanitizeStr s).toList) = "null".toList ∨
            lowerList (stripList (sanitizeStr s).toList) = "none".toList) := by
          rw [hstrip]
          rintro (h | h | h)
          · exact hw (by simpa using h)
          · exact h1 (by rw [hy, toList_mk]; exact h)
          · exact h2 (by rw [hy, toList_mk]; exact h)
        rw [sanitizeStr_main _ hyA hyB, hstrip, sanitizeCore_idem, ← hy]

lemma stripList_nil_of_all_space (l : List Char) (h : l.all isPySpace = true) :
    stripList l = [] := by
  have h1 : l.dropWhile isPySpace = [] := by
    induction l with
    | nil => rfl
    | cons a l ih =>
      rw [List.all_cons, Bool.and_eq_true] at h
      rw [List.dropWhile_cons, if_pos (by simp [h.1])]
      exact ih h.2
  simp [stripList, h1]

lemma reSanitize_all (s : String) :
    (reSanitize s).toList.all (fun c => isAsciiLetter c || isPySpace c) = true := by
  rw [List.all_eq_true]
  intro c hc
  exact (List.mem_filter.mp hc).2

/-- **C5** (amended).  The per-field cleaning `sanitizeName` of
`clean_passport_data` maps `None`, `""`, whitespace-only strings, and
values whose stripped lowercase form reads `"null"` or `"none"` to `""`,
and otherwise keeps letters and whitespace, collapses whitespace runs and
trims; it is idempotent on every input whose cleaned output does not
itself read `"null"`/`"none"` case-insensitively (on those inputs a second
application yields `""`, see the counterexample). -/
theorem claim_C5_sanitizeName_amended :
    (∀ x : Option String,
        lowerList (sanitizeName x).toList ≠ "null".toList →
        lowerList (sanitizeName x).toList ≠ "none".toList →
        sanitizeName (some (sanitizeName x)) = sanitizeName x)
    ∧ sanitizeName none = ""
    ∧ sanitizeName (some "") = ""
    ∧ (∀ s : String, s.toList.all isPySpace = true → sanitizeName (some s) = "")
    ∧ (∀ s : String, lowerList (stripList s.toList) = "null".toList →
        sanitizeName (some s) = "")
    ∧ (∀ s : String, lowerList (stripList s.toList) = "none".toList →
        sanitizeName (some s) = "")
    ∧ (∀ s : String, ¬(s = "null" ∨ s = "") →
        ¬((stripList s.toList).isEmpty = true ∨
          lowerList (stripList s.toList) = "null".toList ∨
          lowerList (stripList s.toList) = "none".toList) →
        sanitizeName (some s) =
          String.mk (joinSp (splitWs (keepNameChars (stripList s.toList))))) := by
  refine ⟨?_, rfl, by decide, ?_, ?_, ?_, ?_⟩
  · intro x h1 h2
    cases x with
    | none => decide
    | some s => exact sanitizeStr_fixed s h1 h2
  · intro s hs
    by_cases hA : s = "null" ∨ s = ""
    · exact sanitizeStr_first_empty s hA
    · exact sanitizeStr_second_empty s hA
        (Or.inl (by rw [stripList_nil_of_all_space s.toList hs]; rfl))
  · intro s h
    by_cases hA : s = "null" ∨ s = ""
    · exact sanitizeStr_first_empty s hA
    · exact sanitizeStr_second_empty s hA (Or.inr (Or.inl h))
  · intro s h
    by_cases hA : s = "null" ∨ s = ""
    · exact sanitizeStr_first_empty s hA
    · exact sanitizeStr_second_empty s hA (Or.inr (Or.inr h))
  · intro s hA hB
    exact sanitizeStr_main s hA hB

/-- **C5** counterexample.  The claimed unconditional idempotence fails:
cleaning `"n#ull"` strips the `#` and returns the literal string `"null"`,
which a second application maps to `""`. -/
theorem claim_C5_counterexample :
    sanitizeName (some "n#ull") = "null" ∧
    sanitizeName (some (sanitizeName (some "n#ull"))) = "" ∧
    sanitizeName (some (sanitizeName (some "n#ull"))) ≠ sanitizeName (some "n#ull") := by
  exact ⟨by decide, by decide, by decide⟩

/-- **C5** witness: the amended idempotence at a concrete input. -/
theorem claim_C5_witness :
    sanitizeName (some (sanitizeName (some " Jo#hn  Smith "))) =
      sanitizeName (some " Jo#hn  Smith ") :=
  claim_C5_sanitizeName_amended.1 (some " Jo#hn  Smith ") (by decide) (by decide)

/-- **C10**.  `clean_passport_data` rewrites exactly the four English name
fields: the key sequence of the dictionary is unchanged, every key outside
`nameFields` keeps its original value, and each name field present is
replaced by its cleaned value. -/
theorem claim_C10_cleanPassportData_frame :
    ∀ d : List (String × PyVal),
      ((cleanPassportData d).map Prod.fst = d.map Prod.fst)
      ∧ (∀ k : String, ¬ k ∈ nameFields →
          List.lookup k (cleanPassportData d) = List.lookup k d)
      ∧ (∀ k : String, k ∈ nameFields →
          List.lookup k (cleanPassportData d) = (List.lookup k d).map cleanValue) := by
  intro d
  refine ⟨?_, ?_, ?_⟩
  · induction d with
    | nil => rfl
    | cons kv d ih =>
      by_cases h : kv.1 ∈ nameFields
      · simpa [cleanPassportData, h] using ih
      · simpa [cleanPassportData, h] using ih
  · intro k hk
    induction d with
    | nil => rfl
    | cons kv d ih =>
      obtain ⟨k1, v1⟩ := kv
      have hd : cleanPassportData ((k1, v1) :: d) =
          (if k1 ∈ nameFields then (k1, cleanValue v1) else (k1, v1)) :: cleanPassportData d := by
        simp [cleanPassportData]
      rw [hd]
      by_cases hmem : k1 ∈ nameFields
      · rw [if_pos hmem]
        by_cases hek : k1 = k
        · exact absurd (hek ▸ hmem) hk
        · have hbe : (k == k1) = false := beq_eq_false_iff_ne.mpr (fun h => hek h.symm)
          simp [List.lookup, hbe, ih]
      · rw [if_neg hmem]
        by_cases hek : k1 = k
        · have hbe : (k == k1) = true := beq_iff_eq.mpr hek.symm
          simp [List.lookup, hbe]
        · have hbe : (k == k1) = false := beq_eq_false_iff_ne.mpr (fun h => hek h.symm)
          simp [List.lookup, hbe, ih]
  · intro k hk
    induction d with
    | nil => rfl
    | cons kv d ih =>
      obtain ⟨k1, v1⟩ := kv
      have hd : cleanPassportData ((k1, v1) :: d) =
          (if k1 ∈ nameFields then (k1, cleanValue v1) else (k1, v1)) :: cleanPassportData d := by
        simp [cleanPassportData]
      rw [hd]
      by_cases hmem : k1 ∈ nameFields
      · rw [if_pos hmem]
        by_cases hek : k1 = k
        · have hbe : (k == k1) = true := beq_iff_eq.mpr hek.symm
          simp [List.lookup, hbe]
        · have hbe : (k == k1) = false := beq_eq_false_iff_ne.mpr (fun h => hek h.symm)
          simp [List.lookup, hbe, ih]
      · rw [if_neg hmem]
        by_cases hek : k1 = k
        · exact absurd (hek ▸ hk) hmem
        · have hbe : (k == k1) = false := beq_eq_false_iff_ne.mpr (fun h => hek h.symm)
          simp [List.lookup, hbe, ih]

/-- **C10** witness: a non-name key (`passport_number`) keeps its value
while a name field in the same dictionary is cleaned. -/
theorem claim_C10_witness :
    List.lookup "passport_number" (cleanPassportData
      [("passport_number", .vStr "AB-123"), ("first_name", .vStr "J#ohn")]) =
    List.lookup "passport_number"
      [("passport_number", .vStr "AB-123"), ("first_name", .vStr "J#ohn")] :=
  (claim_C10_cleanPassportData_frame
    [("passport_number", .vStr "AB-123"), ("first_name", .vStr "J#ohn")]).2.1
    "passport_number" (by decide)

/-- The first example record of the family-name claim. -/
def fnHusband : NameFields := ⟨some "", none, some "Al Rashid", none, none, none, true⟩

/-- The second example record: empty husband name, father name present. -/
def fnFather : NameFields := ⟨some "", none, some "", none, some "Hassan", none, true⟩

/-- The third example record: every name empty. -/
def fnEmpty : NameFields := ⟨some "", none, some "", none, some "", none, true⟩

/-- **C4**.  The family-name fallback chain of `submit_full_info_api`: a
nonempty stripped `last_name` wins; else, when `married` and `husband_name`
are truthy and the stripped husband name is nonempty, the husband's names
are used; else, when `husband_name` did not fire and `father_name` is
truthy with nonempty stripped value, the father's names; else the English
family name is empty — and the final English value is always re-sanitized
to letters and whitespace only.  The three example records of the claim
evaluate as stated. -/
theorem claim_C4_resolveFamilyName :
    ((resolveFamilyName fnHusband).1 = "Al Rashid")
    ∧ ((resolveFamilyName fnFather).1 = "Hassan")
    ∧ (resolveFamilyName fnEmpty = ("", ""))
    ∧ (∀ f : NameFields,
        (resolveFamilyName f).1.toList.all (fun c => isAsciiLetter c || isPySpace c) = true)
    ∧ (∀ f : NameFields, stripStr (optStr f.lastName) ≠ "" →
        resolveFamilyName f =
          (reSanitize (stripStr (optStr f.lastName)), stripStr (optStr f.arabicLastName)))
    ∧ (∀ f : NameFields, stripStr (optStr f.lastName) = "" →
        f.married = true → truthyStr f.husbandName = true →
        stripStr (optStr f.husbandName) ≠ "" →
        resolveFamilyName f =
          (reSanitize (stripStr (optStr f.husbandName)),
           if truthyStr f.husbandArabicName then optStr f.husbandArabicName
           else stripStr (optStr f.arabicLastName)))
    ∧ (∀ f : NameFields, stripStr (optStr f.lastName) = "" →
        (f.married && truthyStr f.husbandName) = false →
        truthyStr f.fatherName = true → stripStr (optStr f.fatherName) ≠ "" →
        resolveFamilyName f =
          (reSanitize (stripStr (optStr f.fatherName)),
           if truthyStr f.fatherArabicName then optStr f.fatherArabicName
           else stripStr (optStr f.arabicLastName)))
    ∧ (∀ f : NameFields, stripStr (optStr f.lastName) = "" →
        (f.married && truthyStr f.husbandName) = false →
        truthyStr f.fatherName = false →
        (resolveFamilyName f).1 = "") := by
  refine ⟨by decide, by decide, by decide, ?_, ?_, ?_, ?_, ?_⟩
  · intro f
    exact reSanitize_all _
  · intro f h
    simp only [resolveFamilyName, if_neg h]
  · intro f h hm hh hhs
    simp only [resolveFamilyName, if_pos h, hm, hh, Bool.and_self, if_pos rfl, if_neg hhs]
    simp [hhs]
  · intro f h hmh hf hfs
    simp only [resolveFamilyName, if_pos h, hmh]
    simp [hf, hfs]
  · intro f h hmh hf
    simp only [resolveFamilyName, if_pos h, hmh, hf]
    simp [hf, reSanitize]
    rw [h]
    rfl

/-- **C4** witness: the husband branch of the fallback chain at a concrete
record, with stripping and final re-sanitization visible. -/
theorem claim_C4_witness :
    resolveFamilyName
      ⟨some "  ", some " x ", some " Al-Rashid ", some "Rashid Ar", none, none, true⟩ =
      ("AlRashid", "Rashid Ar") := by
  have h := claim_C4_resolveFamilyName.2.2.2.2.2.1
    ⟨some "  ", some " x ", some " Al-Rashid ", some "Rashid Ar", none, none, true⟩
    (by decide) (by decide) (by decide) (by decide)
  rw [h]
  decide

/-- **C6**.  `calculate_age` parses against the ordered formats
`YYYY-MM-DD`, `DD-MM-YYYY`, `MM/DD/YYYY`, `DD/MM/YYYY` (first match wins:
`01/02/1990` is January 2nd, not February 1st), returns `none` for empty
or unparseable input, and subtracts one from the calendar-year difference
exactly when today's (month, day) precedes the birth date's: born
1990-05-15, the age is 33 on 2024-05-14 and 34 on 2024-05-15 and on every
later day of 2024. -/
theorem claim_C6_calculateAge :
    (calculateAge ⟨2024, 5, 14⟩ "1990-05-15" = some 33)
    ∧ (calculateAge ⟨2024, 5, 15⟩ "1990-05-15" = some 34)
    ∧ (∀ t : PyDate, t.year = 2024 → pairLt (t.month, t.day) (5, 15) = false →
        calculateAge t "1990-05-15" = some 34)
    ∧ (∀ t : PyDate, calculateAge t "not-a-date" = none)
    ∧ (∀ t : PyDate, calculateAge t "" = none)
    ∧ (∀ (t : PyDate) (s : String), parseBirthDate s = none → calculateAge t s = none)
    ∧ (strptimeDate .mdySlash "01/02/1990" = some ⟨1990, 1, 2⟩)
    ∧ (strptimeDate .dmySlash "01/02/1990" = some ⟨1990, 2, 1⟩)
    ∧ (parseBirthDate "01/02/1990" = some ⟨1990, 1, 2⟩)
    ∧ (parseBirthDate "15-05-1990" = some ⟨1990, 5, 15⟩) := by
  refine ⟨by decide, by decide, ?_, ?_, ?_, ?_, by decide, by decide, by decide, by decide⟩
  · intro t hy hp
    obtain ⟨y, m, d⟩ := t
    simp only at hy hp
    subst hy
    simp [calculateAge, show parseBirthDate "1990-05-15" = some ⟨1990, 5, 15⟩ from by decide,
      hp]
  · intro t
    rw [calculateAge, if_neg (by decide),
      show parseBirthDate "not-a-date" = none from by decide]
  · intro t
    rw [calculateAge, if_pos rfl]
  · intro t s hp
    rw [calculateAge]
    by_cases hs : s = ""
    · rw [if_pos hs]
    · rw [if_neg hs, hp]

/-- **C6** witness: the age is still 34 on the last day of 2024. -/
theorem claim_C6_witness :
    calculateAge ⟨2024, 12, 31⟩ "1990-05-15" = some 34 :=
  claim_C6_calculateAge.2.2.1 ⟨2024, 12, 31⟩ rfl (by decide)

/-! ## Run-loop lemmas -/

lemma runJobs_of_stop (today : PyDate) (ts : String) (s : BatchState) (jobs : List JobEnv)
    (h : s.shouldStop = true) : runJobs today ts s jobs = s := by
  cases jobs <;> simp [runJobs, h]

lemma runJobs_cons (today : PyDate) (ts : String) (s : BatchState) (j : JobEnv)
    (rest : List JobEnv) (h : s.shouldStop = false) :
    runJobs today ts s (j :: rest) = runJobs today ts (runJob today ts s j) rest := by
  simp [runJobs, h]

/-- The calls a job can ever issue, in pipeline order. -/
def pipelineCalls : List Event :=
  [.call .scanPassport, .call .submitIdentity, .call .listCompanions,
   .call (.uploadAttachment 2), .call (.uploadAttachment 3),
   .call .submitContactInfo, .call .submitDisclosure]

lemma processApi_trace_sub (j : JobEnv) :
    ∀ e ∈ (processPassportApi j).1, e ∈ pipelineCalls := by
  intro e he
  unfold processPassportApi at he
  repeat' split at he
  all_goals simp only [List.mem_append, List.mem_cons, List.mem_singleton,
    List.not_mem_nil, or_false, false_or] at he
  all_goals simp only [pipelineCalls, List.mem_cons, List.not_mem_nil, or_false]
  all_goals tauto

lemma pipelineCalls_are_calls (e : Event) (h : e ∈ pipelineCalls) :
    ∃ op, e = Event.call op := by
  fin_cases h <;> exact ⟨_, rfl⟩

lemma runJob_extract_none (today : PyDate) (ts : String) (s : BatchState) (j : JobEnv)
    (h : j.extract = none) : runJob today ts s j = s := by
  unfold runJob
  rw [h]

lemma runJob_underage (today : PyDate) (ts : String) (s : BatchState) (j : JobEnv)
    (pd : List (String × PyVal)) (hx : j.extract = some pd)
    (hu : jobUnderAge today pd = true) :
    runJob today ts s j =
      { s with underAgeCount := s.underAgeCount + 1,
               events := s.events ++ [.movedUnderAge j.file (underAgeName ts j.file pd)] } := by
  unfold runJob
  rw [hx]
  simp [hu]

lemma runJob_ok (today : PyDate) (ts : String) (s : BatchState) (j : JobEnv)
    (pd : List (String × PyVal)) (evs : List Event) (midOpt : Option Nat)
    (hx : j.extract = some pd) (hu : jobUnderAge today pd = false)
    (hres : processPassportApi j = (evs, .ok midOpt)) :
    runJob today ts s j =
      { s with
        mutamerIds := s.mutamerIds ++
          (match midOpt with
           | some m => if m = 0 then [] else [m]
           | none => []),
        events := s.events ++ evs ++ [.movedProcessed j.file (processedName ts j.file)],
        processedCount := s.processedCount + 1 } := by
  unfold runJob
  rw [hx]
  simp [hu, hres]
  cases midOpt <;> rfl

lemma runJob_exc_stop (today : PyDate) (ts : String) (s : BatchState) (j : JobEnv)
    (pd : List (String × PyVal)) (evs : List Event) (m : String)
    (hx : j.extract = some pd) (hu : jobUnderAge today pd = false)
    (hres : processPassportApi j = (evs, .error (.exc m)))
    (hm : (strContains m "401" || strContains m "Unauthorized") = true) :
    runJob today ts s j = { s with shouldStop := true, events := s.events ++ evs } := by
  unfold runJob
  rw [hx]
  simp [hu, hres, hm]

lemma runJob_exc_err (today : PyDate) (ts : String) (s : BatchState) (j : JobEnv)
    (pd : List (String × PyVal)) (evs : List Event) (m : String)
    (hx : j.extract = some pd) (hu : jobUnderAge today pd = false)
    (hres : processPassportApi j = (evs, .error (.exc m)))
    (hm : (strContains m "401" || strContains m "Unauthorized") = false) :
    runJob today ts s j =
      { s with errorCount := s.errorCount + 1,
               events := s.events ++ evs ++ [.movedError j.file (errorName ts j.file m)] } := by
  unfold runJob
  rw [hx]
  simp [hu, hres, hm]

/-! ## Concrete batch scenarios -/

/-- The fixed `date.today()` of the concrete scenarios. -/
def today0 : PyDate := ⟨2024, 5, 14⟩

/-- An adult passport's extracted dictionary. -/
def goodDict : List (String × PyVal) :=
  [("first_name", .vStr "A"), ("last_name", .vStr "B"),
   ("date_of_birth", .vStr "1990-05-15")]

/-- A job whose every remote call succeeds, enrolling mutamer `mid`. -/
def okJob (f : String) (mid : Nat) : JobEnv :=
  { file := f
    extract := some goodDict
    scan := .success true
    submitIdentity := .success mid
    hasCompanionMapping := false
    uploadIqama := .success true
    uploadVaccine := .success true
    submitContact := .success ()
    submitDisclosure := .success () }

/-- A job whose `submitIdentity` call returns HTTP 401. -/
def authJob (f : String) : JobEnv :=
  { okJob f 9 with submitIdentity := .httpStatus 401 "denied" }

/-- A job whose first `uploadAttachment` call returns HTTP 500. -/
def errJob (f : String) (body : String) : JobEnv :=
  { okJob f 9 with uploadIqama := .httpStatus 500 body }

/-- An extracted dictionary whose birth date lies in the future, making the
computed age negative. -/
def underDict : List (String × PyVal) :=
  [("first_name", .vStr "Kid"), ("last_name", .vStr "One"),
   ("date_of_birth", .vStr "2500-01-01")]

/-- A job routed to the under-age outcome. -/
def underJob (f : String) : JobEnv := { okJob f 9 with extract := some underDict }

/-- **C1**.  A job whose extracted `date_of_birth` computes to a negative
age is routed to the under-age outcome: the under-age counter is
incremented, the only side effect is the move of the source file to the
under-age disposition (filename = timestamp, name part, `UNDERAGE`, the
original name — no remote call is issued and no error is counted), and the
batch continues with the remaining jobs. -/
theorem claim_C1_underAge_routing :
    ∀ (today : PyDate) (ts : String) (s : BatchState) (j : JobEnv) (rest : List JobEnv)
      (pd : List (String × PyVal)) (a : Int),
      s.shouldStop = false →
      j.extract = some pd →
      pyTruthyVal (List.lookup "date_of_birth" pd) = true →
      calculateAgeVal today ((List.lookup "date_of_birth" pd).getD .vNull) = some a →
      a < 0 →
      runJobs today ts s (j :: rest) =
        runJobs today ts
          { s with underAgeCount := s.underAgeCount + 1,
                   events := s.events ++
                     [.movedUnderAge j.file (underAgeName ts j.file pd)] }
          rest
      ∧ underAgeName ts j.file pd = ts ++ underAgeNamePart pd ++ "_UNDERAGE_" ++ j.file := by
  intro today ts s j rest pd a hstop hx hb ha hneg
  have hu : jobUnderAge today pd = true := by
    unfold jobUnderAge
    rw [hb, ha]
    simp [hneg]
  refine ⟨?_, rfl⟩
  rw [runJobs_cons today ts s j rest hstop, runJob_underage today ts s j pd hx hu]

/-- **C1** witness: the under-age routing on a concrete one-job batch. -/
theorem claim_C1_witness :
    runJobs today0 "TS" startState [underJob "kid.jpg"] =
      { startState with
          underAgeCount := 1,
          events := [.movedUnderAge "kid.jpg" "TS_Kid_One_UNDERAGE_kid.jpg"] } := by
  have h := (claim_C1_underAge_routing today0 "TS" startState (underJob "kid.jpg") []
    underDict (-476) rfl rfl (by decide) (by decide) (by decide)).1
  rw [h]
  decide

/-- **C2**.  A 401 from `submitIdentity` halts the whole batch: the stop
flag is set, the failing job adds only its two remote-call events (its file
is not moved and it is not counted as errored), and no later job runs.  On
the concrete 3-job batch of the claim the summary is exactly 1 processed,
0 under-age, 0 errored, with job 3's file untouched. -/
theorem claim_C2_authExpired_halts :
    (∀ (today : PyDate) (ts : String) (s : BatchState) (j : JobEnv) (rest : List JobEnv)
       (pd : List (String × PyVal)) (body : String),
       s.shouldStop = false →
       j.extract = some pd →
       jobUnderAge today pd = false →
       j.scan = .success true →
       j.submitIdentity = .httpStatus 401 body →
       runJobs today ts s (j :: rest) =
         { s with
             shouldStop := true,
             events := s.events ++ [.call .scanPassport, .call .submitIdentity] })
    ∧ runJobs today0 "TS" startState [okJob "p1.jpg" 7, authJob "p2.jpg", okJob "p3.jpg" 8] =
        { processedCount := 1, errorCount := 0, underAgeCount := 0, mutamerIds := [7],
          shouldStop := true,
          events := [.call .scanPassport, .call .submitIdentity, .call (.uploadAttachment 2),
            .call (.uploadAttachment 3), .call .submitContactInfo, .call .submitDisclosure,
            .movedProcessed "p1.jpg" "TS_p1.jpg",
            .call .scanPassport, .call .submitIdentity] } := by
  constructor
  · intro today ts s j rest pd body hstop hx hu hscan hsub
    have hres : processPassportApi j =
        ([.call .scanPassport, .call .submitIdentity],
         .error (.exc ("API processing error: " ++ authMsg))) := by
      unfold processPassportApi
      rw [hscan, hsub]
      rfl
    have hm : (strContains ("API processing error: " ++ authMsg) "401" ||
        strContains ("API processing error: " ++ authMsg) "Unauthorized") = true := by
      decide
    rw [runJobs_cons today ts s j rest hstop,
      runJob_exc_stop today ts s j pd _ _ hx hu hres hm,
      runJobs_of_stop today ts _ rest rfl]
  · decide

/-- **C2** witness: the general halting theorem applied after job 1 of the
concrete batch, at state `runJob today0 "TS" startState (okJob "p1.jpg" 7)`. -/
theorem claim_C2_witness :
    runJobs today0 "TS" (runJob today0 "TS" startState (okJob "p1.jpg" 7))
        [authJob "p2.jpg", okJob "p3.jpg" 8] =
      { runJob today0 "TS" startState (okJob "p1.jpg" 7) with
          shouldStop := true,
          events := (runJob today0 "TS" startState (okJob "p1.jpg" 7)).events ++
            [.call .scanPassport, .call .submitIdentity] } :=
  claim_C2_authExpired_halts.1 today0 "TS" (runJob today0 "TS" startState (okJob "p1.jpg" 7))
    (authJob "p2.jpg") [okJob "p3.jpg" 8] goodDict "denied"
    (by decide) rfl (by decide) rfl rfl

lemma listStarts_append (p r : List Char) : listStarts (p ++ r) p = true := by
  induction p with
  | nil => cases r <;> rfl
  | cons a p ih => simp [listStarts, ih]

lemma containsSub_of_starts (l pat : List Char) (h : listStarts l pat = true) :
    containsSub l pat = true := by
  cases l with
  | nil => exact h
  | cons c rest => simp [containsSub, h]

lemma containsSub_cons (c : Char) (l pat : List Char) (h : containsSub l pat = true) :
    containsSub (c :: l) pat = true := by
  simp [containsSub, h]

lemma containsSub_append (x pat y : List Char) :
    containsSub (x ++ (pat ++ y)) pat = true := by
  induction x with
  | nil => exact containsSub_of_starts _ _ (listStarts_append pat y)
  | cons a x ih => exact containsSub_cons a _ _ ih

lemma errorName_has_ERROR (ts f m : String) :
    strContains (errorName ts f m) "ERROR" = true := by
  unfold strContains errorName
  rw [show (ts ++ "_ERROR_" ++ errorPart m ++ "_" ++ f).toList =
      (ts.toList ++ ['_']) ++ ("ERROR".toList ++
        ('_' :: ((errorPart m).toList ++ '_' :: f.toList))) from by
    show (ts ++ "_ERROR_" ++ errorPart m ++ "_" ++ f).data = _
    simp [String.data_append]]
  exact containsSub_append _ _ _

lemma errorPart_length_le (m : String) : (errorPart m).length ≤ 50 :=
  List.length_take_le _ _

/-- **C3**.  A non-401 transport failure (here: `uploadAttachment`
returning HTTP 500) sends the job to the errored outcome: its file is
moved to the error disposition under a name containing `ERROR` and the
sanitized error text (truncated to 50 characters) plus the original
filename, the error counter is incremented, and the batch continues with
the remaining jobs; on the concrete batch, jobs 1 and 3 stay enrolled. -/
theorem claim_C3_http500_errored :
    (∀ (today : PyDate) (ts : String) (s : BatchState) (j : JobEnv) (rest : List JobEnv)
       (pd : List (String × PyVal)) (mid : Nat) (body : String),
       s.shouldStop = false →
       j.extract = some pd →
       jobUnderAge today pd = false →
       j.scan = .success true →
       j.submitIdentity = .success mid →
       j.uploadIqama = .httpStatus 500 body →
       strContains ("API processing error: HTTP 500: " ++ body) "401" = false →
       strContains ("API processing error: HTTP 500: " ++ body) "Unauthorized" = false →
       runJobs today ts s (j :: rest) =
         runJobs today ts
           { s with
               errorCount := s.errorCount + 1,
               events := s.events ++
                 ([.call .scanPassport, .call .submitIdentity] ++
                   (if j.hasCompanionMapping then [.call .listCompanions] else []) ++
                   [.call (.uploadAttachment 2)]) ++
                 [.movedError j.file
                   (errorName ts j.file ("API processing error: HTTP 500: " ++ body))] }
           rest)
    ∧ (∀ m : String, (errorPart m).length ≤ 50)
    ∧ (∀ ts f m : String, strContains (errorName ts f m) "ERROR" = true)
    ∧ (∀ ts f m : String, errorName ts f m = ts ++ "_ERROR_" ++ errorPart m ++ "_" ++ f)
    ∧ runJobs today0 "TS" startState
        [okJob "p1.jpg" 5, errJob "p2.jpg" "server exploded", okJob "p3.jpg" 9] =
      { processedCount := 2, errorCount := 1, underAgeCount := 0, mutamerIds := [5, 9],
        shouldStop := false,
        events := [.call .scanPassport, .call .submitIdentity, .call (.uploadAttachment 2),
          .call (.uploadAttachment 3), .call .submitContactInfo, .call .submitDisclosure,
          .movedProcessed "p1.jpg" "TS_p1.jpg",
          .call .scanPassport, .call .submitIdentity, .call (.uploadAttachment 2),
          .movedError "p2.jpg" "TS_ERROR_API_processing_error_HTTP_500_server_exploded_p2.jpg",
          .call .scanPassport, .call .submitIdentity, .call (.uploadAttachment 2),
          .call (.uploadAttachment 3), .call .submitContactInfo, .call .submitDisclosure,
          .movedProcessed "p3.jpg" "TS_p3.jpg"] } := by
  refine ⟨?_, errorPart_length_le, errorName_has_ERROR, fun ts f m => rfl, by decide⟩
  intro today ts s j rest pd mid body hstop hx hu hscan hsub hup h401 hauth
  have hres : processPassportApi j =
      ([.call .scanPassport, .call .submitIdentity] ++
        (if j.hasCompanionMapping then [.call .listCompanions] else []) ++
        [.call (.uploadAttachment 2)],
       .error (.exc ("API processing error: HTTP 500: " ++ body))) := by
    unfold processPassportApi
    rw [hscan, hsub, hup]
    rfl
  have hm : (strContains ("API processing error: HTTP 500: " ++ body) "401" ||
      strContains ("API processing error: HTTP 500: " ++ body) "Unauthorized") = false := by
    rw [h401, hauth]
    rfl
  rw [runJobs_cons today ts s j rest hstop,
    runJob_exc_err today ts s j pd _ _ hx hu hres hm]

/-- **C3** witness: the general errored-routing theorem applied after job 1
of the concrete batch. -/
theorem claim_C3_witness :
    runJobs today0 "TS" (runJob today0 "TS" startState (okJob "p1.jpg" 5))
        [errJob "p2.jpg" "server exploded", okJob "p3.jpg" 9] =
      runJobs today0 "TS"
        { runJob today0 "TS" startState (okJob "p1.jpg" 5) with
            errorCount := (runJob today0 "TS" startState (okJob "p1.jpg" 5)).errorCount + 1,
            events := (runJob today0 "TS" startState (okJob "p1.jpg" 5)).events ++
              ([.call .scanPassport, .call .submitIdentity] ++
                (if (errJob "p2.jpg" "server exploded").hasCompanionMapping
                 then [.call .listCompanions] else []) ++
              [.call (.uploadAttachment 2)]) ++
              [.movedError "p2.jpg"
                (errorName "TS" "p2.jpg"
                  ("API processing error: HTTP 500: " ++ "server exploded"))] }
        [okJob "p3.jpg" 9] :=
  claim_C3_http500_errored.1 today0 "TS" (runJob today0 "TS" startState (okJob "p1.jpg" 5))
    (errJob "p2.jpg" "server exploded") [okJob "p3.jpg" 9] goodDict 9 "server exploded"
    (by decide) rfl (by decide) rfl rfl rfl (by decide) (by decide)

/-- **C8**.  The batch-halting authentication check is a substring test on
the exception text: any per-job failure whose wrapped message contains
`"401"` or `"Unauthorized"` sets the stop flag and halts, the job's file is
not moved (the only events it adds are remote calls) and it is not counted
as errored — even for an HTTP 500 whose body merely contains the digits
`401`, as the concrete batch shows. -/
theorem claim_C8_substring_auth_check :
    (∀ (today : PyDate) (ts : String) (s : BatchState) (j : JobEnv) (rest : List JobEnv)
       (pd : List (String × PyVal)) (m : String),
       s.shouldStop = false →
       j.extract = some pd →
       jobUnderAge today pd = false →
       (processPassportApi j).2 = Except.error (.exc m) →
       (strContains m "401" || strContains m "Unauthorized") = true →
       runJobs today ts s (j :: rest) =
         { s with
             shouldStop := true,
             events := s.events ++ (processPassportApi j).1 }
       ∧ ∀ e ∈ (processPassportApi j).1, ∃ op, e = Event.call op)
    ∧ runJobs today0 "TS" startState [errJob "p.jpg" "failure id 40123"] =
        { startState with
            shouldStop := true,
            events := [.call .scanPassport, .call .submitIdentity,
              .call (.uploadAttachment 2)] } := by
  constructor
  · intro today ts s j rest pd m hstop hx hu hres hm
    constructor
    · rcases hpp : processPassportApi j with ⟨evs, res⟩
      have hres2 : res = Except.error (.exc m) := by
        have h := hres
        rw [hpp] at h
        exact h
      subst hres2
      rw [runJobs_cons today ts s j rest hstop,
        runJob_exc_stop today ts s j pd evs m hx hu hpp hm,
        runJobs_of_stop today ts _ rest rfl]
    · intro e he
      exact pipelineCalls_are_calls e (processApi_trace_sub j e he)
  · decide

/-- **C8** witness: the substring criterion applied to a concrete job whose
processing fails with a message containing `"401"`. -/
theorem claim_C8_witness :
    runJobs today0 "TS" startState [errJob "p.jpg" "failure id 40123"] =
      { startState with
          shouldStop := true,
          events := startState.events ++
            (processPassportApi (errJob "p.jpg" "failure id 40123")).1 } :=
  (claim_C8_substring_auth_check.1 today0 "TS" startState
    (errJob "p.jpg" "failure id 40123") [] goodDict
    "API processing error: HTTP 500: failure id 40123"
    rfl rfl (by decide) rfl (by decide)).1

/-- A job whose 2xx scan response carries a falsy JSON body. -/
def falsyScanJob (f : String) : JobEnv := { okJob f 9 with scan := .success false }

lemma runJob_ids_le (today : PyDate) (ts : String) (s : BatchState) (j : JobEnv)
    (h : s.mutamerIds.length ≤ s.processedCount) :
    (runJob today ts s j).mutamerIds.length ≤ (runJob today ts s j).processedCount := by
  unfold runJob
  repeat' split
  all_goals first
    | exact h
    | (simp [List.length_append]; omega)

lemma runJobs_ids_le (today : PyDate) (ts : String) (s : BatchState) (jobs : List JobEnv)
    (h : s.mutamerIds.length ≤ s.processedCount) :
    (runJobs today ts s jobs).mutamerIds.length ≤ (runJobs today ts s jobs).processedCount := by
  induction jobs generalizing s with
  | nil => exact h
  | cons j rest ih =>
    unfold runJobs
    by_cases hs : s.shouldStop = true
    · rw [if_pos hs]
      exact h
    · rw [if_neg hs]
      exact ih _ (runJob_ids_le today ts s j h)

/-- **C9**.  A falsy 2xx scan body makes `process_passport_api` return
`None` without error: the run loop still moves the file to the processed
folder and counts it, while appending no mutamer id; consequently the
number of collected mutamer ids never exceeds the processed counter on any
batch. -/
theorem claim_C9_falsy_scan :
    (∀ (today : PyDate) (ts : String) (s : BatchState) (j : JobEnv) (rest : List JobEnv)
       (pd : List (String × PyVal)),
       s.shouldStop = false →
       j.extract = some pd →
       jobUnderAge today pd = false →
       j.scan = HttpOutcome.success false →
       runJobs today ts s (j :: rest) =
         runJobs today ts
           { s with
               processedCount := s.processedCount + 1,
               events := s.events ++
                 [.call .scanPassport, .movedProcessed j.file (processedName ts j.file)] }
           rest)
    ∧ (∀ (today : PyDate) (ts : String) (cg : Bool) (gOut : HttpOutcome (Option Nat))
        (jobs : List JobEnv),
        (runBatch today ts cg gOut jobs).mutamerIds.length ≤
          (runBatch today ts cg gOut jobs).processedCount) := by
  constructor
  · intro today ts s j rest pd hstop hx hu hscan
    have hres : processPassportApi j = ([.call .scanPassport], .ok none) := by
      unfold processPassportApi
      rw [hscan]
      rfl
    rw [runJobs_cons today ts s j rest hstop,
      runJob_ok today ts s j pd _ none hx hu hres]
    simp
  · intro today ts cg gOut jobs
    have hloop : (runJobs today ts startState jobs).mutamerIds.length ≤
        (runJobs today ts startState jobs).processedCount :=
      runJobs_ids_le today ts startState jobs (by decide)
    unfold runBatch
    dsimp only
    split
    · exact hloop
    · exact hloop

/-- **C9** witness: the falsy-scan behavior on a concrete one-job batch. -/
theorem claim_C9_witness :
    runJobs today0 "TS" startState [falsyScanJob "p.jpg"] =
      runJobs today0 "TS"
        { startState with
            processedCount := startState.processedCount + 1,
            events := startState.events ++
              [.call .scanPassport,
               .movedProcessed (falsyScanJob "p.jpg").file
                 (processedName "TS" (falsyScanJob "p.jpg").file)] }
        [] :=
  claim_C9_falsy_scan.1 today0 "TS" startState (falsyScanJob "p.jpg") [] goodDict
    rfl rfl (by decide) rfl

/-! ## Group formation (C7) -/

lemma processApi_no_group (j : JobEnv) :
    ∀ e ∈ (processPassportApi j).1,
      e ≠ Event.call .createGroup ∧ e ≠ Event.call .assignMutamers := by
  intro e he
  have h := processApi_trace_sub j e he
  fin_cases h <;> exact ⟨by simp, by simp⟩

lemma processApi_error_exc (j : JobEnv) :
    ∀ (evs : List Event) (e : PyExc),
      processPassportApi j = (evs, .error e) → ∃ m, e = PyExc.exc m := by
  intro evs e hpp
  unfold processPassportApi at hpp
  repeat' split at hpp
  all_goals simp_all [wrapApi]
  all_goals exact ⟨_, hpp.2.symm⟩

lemma runJob_no_group (today : PyDate) (ts : String) (s : BatchState) (j : JobEnv)
    (h : ∀ e ∈ s.events, e ≠ Event.call .createGroup ∧ e ≠ Event.call .assignMutamers) :
    ∀ e ∈ (runJob today ts s j).events,
      e ≠ Event.call .createGroup ∧ e ≠ Event.call .assignMutamers := by
  intro e
  rcases hx : j.extract with _ | pd
  · rw [runJob_extract_none today ts s j hx]
    exact h e
  · by_cases hu : jobUnderAge today pd = true
    · rw [runJob_underage today ts s j pd hx hu]
      intro he
      simp only [List.mem_append, List.mem_singleton] at he
      rcases he with he | he
      · exact h e he
      · subst he
        exact ⟨by simp, by simp⟩
    · replace hu : jobUnderAge today pd = false := by simpa using hu
      rcases hpp : processPassportApi j with ⟨evs, res⟩
      have hevs : ∀ e2 ∈ evs,
          e2 ≠ Event.call .createGroup ∧ e2 ≠ Event.call .assignMutamers := by
        intro e2 he2
        exact processApi_no_group j e2 (by rw [hpp]; exact he2)
      rcases res with ex | midOpt
      · obtain ⟨m, rfl⟩ := processApi_error_exc j evs ex hpp
        by_cases hm : (strContains m "401" || strContains m "Unauthorized") = true
        · rw [runJob_exc_stop today ts s j pd evs m hx hu hpp hm]
          intro he
          rcases List.mem_append.mp he with he | he
          · exact h e he
          · exact hevs e he
        · replace hm : (strContains m "401" || strContains m "Unauthorized") = false := by
            simpa using hm
          rw [runJob_exc_err today ts s j pd evs m hx hu hpp hm]
          intro he
          simp only [List.mem_append, List.mem_singleton] at he
          rcases he with (he | he) | he
          · exact h e he
          · exact hevs e he
          · subst he
            exact ⟨by simp, by simp⟩
      · rw [runJob_ok today ts s j pd evs midOpt hx hu hpp]
        intro he
        simp only [List.mem_append, List.mem_singleton] at he
        rcases he with (he | he) | he
        · exact h e he
        · exact hevs e he
        · subst he
          exact ⟨by simp, by simp⟩

lemma runJobs_no_group (today : PyDate) (ts : String) (s : BatchState) (jobs : List JobEnv)
    (h : ∀ e ∈ s.events, e ≠ Event.call .createGroup ∧ e ≠ Event.call .assignMutamers) :
    ∀ e ∈ (runJobs today ts s jobs).events,
      e ≠ Event.call .createGroup ∧ e ≠ Event.call .assignMutamers := by
  induction jobs generalizing s with
  | nil => exact h
  | cons j rest ih =>
    unfold runJobs
    by_cases hs : s.shouldStop = true
    · rw [if_pos hs]
      exact h
    · rw [if_neg hs]
      exact ih _ (runJob_no_group today ts s j h)

lemma create_mem_groupPhase (gOut : HttpOutcome (Option Nat)) :
    Event.call .createGroup ∈ groupPhaseEvents gOut := by
  unfold groupPhaseEvents
  exact List.mem_cons_self _ _

lemma assign_mem_groupPhase (gOut : HttpOutcome (Option Nat)) :
    Event.call .assignMutamers ∈ groupPhaseEvents gOut ↔
      ∃ gid, transportResult gOut = Except.ok (some gid) ∧ gid ≠ 0 := by
  unfold groupPhaseEvents
  rcases htr : transportResult gOut with e | gidOpt
  · simp
  · rcases gidOpt with _ | gid
    · simp
    · by_cases hz : gid = 0
      · subst hz
        simp
      · simp [hz]

/-- **C7**.  Group formation runs after the loop iff it was requested and
at least one mutamer id was collected (with an empty id list it is skipped
even when requested); `AssignMutamers` is called iff additionally
`CreateGroup` returned a truthy group id; and whatever the group-phase
outcome, no batch counter, collected id, or stop flag changes — the loop's
state is final. -/
theorem claim_C7_group_formation :
    ∀ (today : PyDate) (ts : String) (cg : Bool) (gOut : HttpOutcome (Option Nat))
      (jobs : List JobEnv),
      ((runBatch today ts cg gOut jobs).processedCount =
          (runJobs today ts startState jobs).processedCount
        ∧ (runBatch today ts cg gOut jobs).errorCount =
          (runJobs today ts startState jobs).errorCount
        ∧ (runBatch today ts cg gOut jobs).underAgeCount =
          (runJobs today ts startState jobs).underAgeCount
        ∧ (runBatch today ts cg gOut jobs).mutamerIds =
          (runJobs today ts startState jobs).mutamerIds
        ∧ (runBatch today ts cg gOut jobs).shouldStop =
          (runJobs today ts startState jobs).shouldStop)
      ∧ ((cg && !(runJobs today ts startState jobs).mutamerIds.isEmpty) = false →
          runBatch today ts cg gOut jobs = runJobs today ts startState jobs)
      ∧ ((cg && !(runJobs today ts startState jobs).mutamerIds.isEmpty) = true →
          (runBatch today ts cg gOut jobs).events =
            (runJobs today ts startState jobs).events ++ groupPhaseEvents gOut)
      ∧ (Event.call .createGroup ∈ (runBatch today ts cg gOut jobs).events ↔
          (cg && !(runJobs today ts startState jobs).mutamerIds.isEmpty) = true)
      ∧ (Event.call .assignMutamers ∈ (runBatch today ts cg gOut jobs).events ↔
          ((cg && !(runJobs today ts startState jobs).mutamerIds.isEmpty) = true ∧
            ∃ gid, transportResult gOut = Except.ok (some gid) ∧ gid ≠ 0)) := by
  intro today ts cg gOut jobs
  have hng : ∀ e ∈ (runJobs today ts startState jobs).events,
      e ≠ Event.call .createGroup ∧ e ≠ Event.call .assignMutamers :=
    runJobs_no_group today ts startState jobs (by intro e he; cases he)
  by_cases hc : (cg && !(runJobs today ts startState jobs).mutamerIds.isEmpty) = true
  · have hB : runBatch today ts cg gOut jobs =
        { runJobs today ts startState jobs with
            events := (runJobs today ts startState jobs).events ++ groupPhaseEvents gOut } := by
      unfold runBatch
      dsimp only
      rw [if_pos hc]
    refine ⟨⟨by rw [hB], by rw [hB], by rw [hB], by rw [hB], by rw [hB]⟩, ?_, ?_, ?_, ?_⟩
    · intro hfalse
      rw [hc] at hfalse
      cases hfalse
    · intro _
      rw [hB]
    · rw [hB]
      show Event.call .createGroup ∈
          (runJobs today ts startState jobs).events ++ groupPhaseEvents gOut ↔ _
      simp only [hc, iff_true, List.mem_append]
      exact Or.inr (create_mem_groupPhase gOut)
    · rw [hB]
      show Event.call .assignMutamers ∈
          (runJobs today ts startState jobs).events ++ groupPhaseEvents gOut ↔ _
      rw [List.mem_append]
      constructor
      · intro hmem
        rcases hmem with hmem | hmem
        · exact absurd rfl (hng _ hmem).2
        · exact ⟨hc, (assign_mem_groupPhase gOut).mp hmem⟩
      · intro ⟨_, hex⟩
        exact Or.inr ((assign_mem_groupPhase gOut).mpr hex)
  · replace hc : (cg && !(runJobs today ts startState jobs).mutamerIds.isEmpty) = false := by
      simpa using hc
    have hB : runBatch today ts cg gOut jobs = runJobs today ts startState jobs := by
      unfold runBatch
      dsimp only
      rw [if_neg (by rw [hc]; exact Bool.false_ne_true)]
    refine ⟨⟨by rw [hB], by rw [hB], by rw [hB], by rw [hB], by rw [hB]⟩, ?_, ?_, ?_, ?_⟩
    · intro _
      exact hB
    · intro htrue
      rw [hc] at htrue
      cases htrue
    · rw [hB, hc]
      constructor
      · intro hmem
        exact absurd rfl (hng _ hmem).1
      · intro hfalse
        cases hfalse
    · rw [hB, hc]
      constructor
      · intro hmem
        exact absurd rfl (hng _ hmem).2
      · intro ⟨hfalse, _⟩
        cases hfalse

/-- **C7** witness: with group creation requested but an empty id list
(a batch whose only job's scan body is falsy), the group phase is skipped
entirely. -/
theorem claim_C7_witness :
    runBatch today0 "TS" true (.success (some 4)) [falsyScanJob "p.jpg"] =
      runJobs today0 "TS" startState [falsyScanJob "p.jpg"] :=
  (claim_C7_group_formation today0 "TS" true (.success (some 4))
    [falsyScanJob "p.jpg"]).2.1 (by decide)
